import Mathlib

/-
Verification development for the load-balancing export subsystem of the
opentelemetry-collector-contrib repository (loadbalancingexporter).

The subsystem routes telemetry batches across a dynamic set of backend
endpoints using a consistent hash ring keyed by a per-item routing key
(typically a trace identifier).  The repository ships the component's test
suite (src/exporter/loadbalancingexporter/log_exporter_test.go); the
component implementation itself (ring construction, resolver poll loop,
load balancer, log exporter) is modelled here from the design document,
with the observable behaviours pinned by the test suite (error messages,
trace-id extraction on empty batches) reproduced exactly.
-/

set_option maxHeartbeats 1000000

namespace LB

/-- Endpoint is an opaque network address/identity string, compared by
string equality (spec section 3, Data Model). -/
abbrev Endpoint := String

/-- RoutingKey is a fixed-width byte sequence (16 bytes for a trace
identifier) extracted from a telemetry item; modelled as a list of
naturals taken modulo 256 (spec section 3). -/
abbrev RoutingKey := List Nat

/-- Size of the numeric hash space: a fixed 32-bit ring (spec section 4.2,
"a fixed-size numeric ring ... stable 32/64-bit hash"). -/
def ringSize : Nat := 4294967296

/-- Modelled from the spec: the concrete hash is left open by the design
document ("a stable 32/64-bit hash"); the model fixes an FNV-1a style fold
over the byte sequence, truncated to 32 bits.  The ring theorems below do
not depend on any property of this function beyond determinism. -/
def hashBytes (bytes : List Nat) : Nat :=
  bytes.foldl (fun h b => ((h ^^^ (b % 256)) * 16777619) % ringSize) 2166136261

/-- Number of virtual positions ("replicas") per Endpoint on the ring
(spec section 4.2: "each Endpoint is hashed into multiple virtual
positions"); a fixed model constant. -/
def numReplicas : Nat := 5

/-- Modelled from the spec: hash of `endpoint || replica-index` giving one
virtual position of the endpoint (spec section 4.2). -/
def hashEndpoint (e : Endpoint) (replica : Nat) : Nat :=
  hashBytes (e.data.map Char.toNat ++ [replica])

/-- Modelled from the spec: hash of the RoutingKey into the same numeric
space as the endpoint positions (spec section 4.2). -/
def hashKey (k : RoutingKey) : Nat :=
  hashBytes k

/-- Virtual positions contributed by one endpoint, each tagged with its
owning endpoint. -/
def endpointPositions (e : Endpoint) : List (Nat × Endpoint) :=
  (List.range numReplicas).map (fun i => (hashEndpoint e i, e))

/-- Ring: an immutable structure of hash-space positions tagged with their
owning Endpoints, built from a current Endpoint set and rebuilt (never
mutated) on membership change (spec section 3). -/
structure Ring where
  items : List (Nat × Endpoint)
deriving DecidableEq

/-- Modelled from the spec: `build(endpoints)` deduplicates the input set
(spec section 4.2, "Duplicate Endpoint entries in the input set must be
deduplicated before building") and lays every endpoint's virtual positions
on the ring. -/
def buildRing (endpoints : List Endpoint) : Ring :=
  ⟨endpoints.dedup.flatMap endpointPositions⟩

/-- Entry with the smallest position among a list of ring entries,
preferring the earliest entry on position ties; none on the empty list. -/
def minEntry : List (Nat × Endpoint) → Option (Nat × Endpoint)
  | [] => none
  | it :: rest =>
    match minEntry rest with
    | none => some it
    | some b => if it.1 ≤ b.1 then some it else some b

/-- Merge of two optional ring entries, keeping the one with the smaller
position and preferring the first on ties; describes how minEntry acts on
a concatenation of position lists. -/
def combine : Option (Nat × Endpoint) → Option (Nat × Endpoint) → Option (Nat × Endpoint)
  | none, y => y
  | some x, none => some x
  | some x, some y => if x.1 ≤ y.1 then some x else some y

/-- Modelled from the spec: `resolve(ring, key)` hashes the RoutingKey and
selects the Endpoint owning the nearest position at or after that hash
value, wrapping around to the first (smallest) position if none is found;
with zero Endpoints it fails (spec section 4.2).  The scan of the sorted
position list is expressed as a direct minimum search, which returns the
same entry. -/
def resolve (r : Ring) (k : RoutingKey) : Option Endpoint :=
  match minEntry (r.items.filter (fun it => hashKey k ≤ it.1)) with
  | some it => some it.2
  | none => (minEntry r.items).map (fun it => it.2)

/-- Log record of the pdata model: carries its trace identifier (the
routing key; all-zero when absent) and an opaque body. -/
structure LogRecord where
  traceID : RoutingKey
  body : String
deriving DecidableEq

/-- Scope logs of the pdata model: a list of log records. -/
structure ScopeLogs where
  logRecords : List LogRecord
deriving DecidableEq

/-- Resource logs of the pdata model: a list of scope logs. -/
structure ResourceLogs where
  scopeLogs : List ScopeLogs
deriving DecidableEq

/-- Logs batch of the pdata model: a list of resource logs. -/
structure Logs where
  resourceLogs : List ResourceLogs
deriving DecidableEq

/-- Empty (all-zero) 16-byte trace identifier, the value of
pcommon.NewTraceIDEmpty(). -/
def emptyTraceID : RoutingKey :=
  List.replicate 16 0

/-- Modelled from the spec and pinned by TestNoLogsInBatch: the routing-key
extraction of the log exporter reads the trace identifier of the first log
record of the first scope of the first resource, and returns the empty
trace identifier when any of those levels is empty (src/exporter/
loadbalancingexporter/log_exporter_test.go lines 238-269; log_exporter.go
is absent from the corpus). -/
def traceIDFromLogs (ld : Logs) : RoutingKey :=
  match ld.resourceLogs with
  | [] => emptyTraceID
  | rl :: _ =>
    match rl.scopeLogs with
    | [] => emptyTraceID
    | sl :: _ =>
      match sl.logRecords with
      | [] => emptyTraceID
      | lr :: _ => lr.traceID

/-- Routing decision for one routable item: resolve its routing key on the
current ring snapshot (spec section 4.4). -/
def routeItem (r : Ring) (it : LogRecord) : Option Endpoint :=
  resolve r it.traceID

/-- Modelled from the spec: the Batch Splitter groups the items of a batch
by resolved Endpoint, producing one sub-batch per distinct resolved
Endpoint, each keeping its items in original batch order (spec section
4.4). -/
def subBatches (r : Ring) (items : List LogRecord) : List (Endpoint × List LogRecord) :=
  ((items.filterMap (routeItem r)).dedup).map
    (fun e => (e, items.filter (fun it => decide (routeItem r it = some e))))

/-- Pooled per-endpoint component: either a logs exporter (whose export
outcome the model fixes as success or a given error), or a component of
some other type, identified by its dynamic type name (the %T of the Go
error message). -/
inductive PooledExporter
  | logs (failure : Option String)
  | other (typeName : String)
deriving DecidableEq

/-- Lookup of the live exporter for an endpoint in the pool (spec section
4.3, `get(endpoint)`). -/
def lookupExporter (pool : List (Endpoint × PooledExporter)) (e : Endpoint) :
    Option PooledExporter :=
  (pool.find? (fun p => p.1 == e)).map (fun p => p.2)

/-- Error reported when a dispatch is attempted with zero Endpoints (spec
section 4.2, NoEndpoints). -/
def noEndpointsMsg : String := "no endpoints available"

/-- Error reported when the pool has no exporter for the resolved endpoint
(spec section 4.3, EndpointNotReady). -/
def notFoundMsg (e : Endpoint) : String :=
  "could not find the exporter for the endpoint " ++ e

/-- Error reported when the pooled component for the resolved endpoint is
not a logs exporter; the message format is pinned by
TestConsumeLogsUnexpectedExporterType (src/exporter/loadbalancingexporter/
log_exporter_test.go line 196). -/
def unexpectedTypeMsg (typeName : String) : String :=
  "unable to export logs, unexpected exporter type: expected *component.LogsExporter but got " ++ typeName

/-- Export of one sub-batch to the pooled exporter of its endpoint: fails
when the endpoint has no live exporter, when the pooled component is not a
logs exporter, or when the downstream export itself reports an error. -/
def exportToEndpoint (pool : List (Endpoint × PooledExporter)) (e : Endpoint) :
    Except String Unit :=
  match lookupExporter pool e with
  | none => .error (notFoundMsg e)
  | some (.other t) => .error (unexpectedTypeMsg t)
  | some (.logs (some msg)) => .error msg
  | some (.logs none) => .ok ()

/-- Component state visible to a dispatch call: the current ring snapshot
and the endpoint exporter pool. -/
structure LBState where
  ring : Ring
  pool : List (Endpoint × PooledExporter)
deriving DecidableEq

/-- Outcome of a dispatch call: full success, a routing error (empty
endpoint set, nothing delivered), or a failure naming the per-endpoint
errors while the other sub-batches were still delivered. -/
inductive DispatchResult
  | success
  | routingError (msg : String)
  | failure (failed : List (Endpoint × String))
deriving DecidableEq

/-- Per-sub-batch export attempts: each sub-batch of the split is sent
exactly once to its endpoint's pooled exporter (spec section 4.4). -/
def exportResults (st : LBState) (items : List LogRecord) :
    List (Endpoint × List LogRecord × Except String Unit) :=
  (subBatches st.ring items).map (fun g => (g.1, g.2, exportToEndpoint st.pool g.1))

/-- Endpoint-error pairs of the failed export attempts. -/
def failedOf (results : List (Endpoint × List LogRecord × Except String Unit)) :
    List (Endpoint × String) :=
  results.filterMap (fun r =>
    match r.2.2 with
    | .error m => some (r.1, m)
    | .ok _ => none)

/-- Sub-batches whose export attempt succeeded: the deliveries performed
by the dispatch call. -/
def deliveredOf (results : List (Endpoint × List LogRecord × Except String Unit)) :
    List (Endpoint × List LogRecord) :=
  results.filterMap (fun r =>
    match r.2.2 with
    | .ok _ => some (r.1, r.2.1)
    | .error _ => none)

/-- Modelled from the spec: `dispatch(batch)` rejects an empty endpoint
set at the dispatcher boundary with a routing error and no deliveries;
otherwise it splits the batch per resolved Endpoint, exports every
sub-batch exactly once (no internal retry), delivers the successful ones
even when sibling endpoints fail, and aggregates the per-endpoint errors
into one outcome (spec sections 4.4 and 7).  The returned pair is the
aggregate outcome and the list of performed deliveries; the component
state itself is never modified by a dispatch call. -/
def dispatch (st : LBState) (items : List LogRecord) :
    DispatchResult × List (Endpoint × List LogRecord) :=
  if st.ring.items = [] then (.routingError noEndpointsMsg, [])
  else
    (if failedOf (exportResults st items) = [] then .success
     else .failure (failedOf (exportResults st items)),
     deliveredOf (exportResults st items))

/-- Modelled from the spec: per-batch consume path of the log exporter
(log_exporter.go is absent from the corpus): extract the routing key with
traceIDFromLogs — the empty key when no trace identifier is extractable —
resolve it on the current ring, fetch the pooled exporter, and deliver the
batch; on success it returns the endpoint the batch was delivered to
(spec sections 4.4 and 4.5). -/
def consumeLog (st : LBState) (ld : Logs) : Except String (Endpoint × Logs) :=
  match resolve st.ring (traceIDFromLogs ld) with
  | none => .error noEndpointsMsg
  | some e =>
    match lookupExporter st.pool e with
    | none => .error (notFoundMsg e)
    | some (.other t) => .error (unexpectedTypeMsg t)
    | some (.logs (some msg)) => .error msg
    | some (.logs none) => .ok (e, ld)

/-- DNS resolver settings of the configuration surface. -/
structure DNSSettings where
  hostname : String
  port : String
deriving DecidableEq

/-- Resolver settings of the configuration: a static list, a DNS entry,
or neither (spec section 6, configuration surface). -/
structure ResolverSettings where
  static : Option (List String)
  dns : Option DNSSettings
deriving DecidableEq

/-- Configuration of the load-balancing exporter. -/
structure Config where
  resolver : ResolverSettings
deriving DecidableEq

/-- Error returned when the configuration defines no resolver; the message
is the errNoResolver value checked by TestNewLogsExporter
(src/exporter/loadbalancingexporter/log_exporter_test.go lines 39-66). -/
def errNoResolver : String := "no resolvers specified for the exporter"

/-- Modelled from the spec: constructing the exporter selects the resolver
variant from the configuration and fails with errNoResolver when neither a
static list nor a DNS entry is configured (loadbalancer.go is absent from
the corpus); on success the validated configuration is returned. -/
def newLogsExporter (cfg : Config) : Except String Config :=
  match cfg.resolver.static, cfg.resolver.dns with
  | none, none => .error errNoResolver
  | _, _ => .ok cfg

/-- Load balancer lifecycle state: whether Start completed. -/
structure LoadBalancerState where
  started : Bool
deriving DecidableEq

/-- Modelled from the spec: Start begins the resolver; if the resolver's
start fails, the component's Start returns exactly that error and the
component is not started (spec section 4.1, failure semantics; pinned by
TestLogExporterStart). -/
def lbStart (resolverStartResult : Option String) (st : LoadBalancerState) :
    Except String LoadBalancerState :=
  match resolverStartResult with
  | some msg => .error msg
  | none => .ok { st with started := true }

/-- Observable state of the poll loop of a DNS or service-discovery
resolver: the last-known-good endpoint list and the log of change-callback
invocations (each invocation carries the new list and triggers exactly one
Pool reconciliation, spec sections 4.1 and 5). -/
structure ResolverState where
  endpoints : List String
  callbackLog : List (List String)
deriving DecidableEq

/-- Modelled from the spec: one poll cycle of the resolver.  A failed poll
is non-fatal: the last-known-good list is retained and no callback fires.
A successful poll diffs the new address list against the previous one as
an unordered set; when identical, nothing changes and no callback fires;
when different, the list is stored and the change callback is invoked
exactly once with the new list (spec section 4.1). -/
def pollStep (st : ResolverState) (result : Except String (List String)) :
    ResolverState :=
  match result with
  | .error _ => st
  | .ok addrs =>
    if List.Perm addrs st.endpoints then st
    else { endpoints := addrs, callbackLog := st.callbackLog ++ [addrs] }

/-- Unfolding of minEntry on a cons in terms of combine. -/
theorem minEntry_cons (x : Nat × Endpoint) (l : List (Nat × Endpoint)) :
    minEntry (x :: l) = combine (some x) (minEntry l) := by
  cases h : minEntry l <;> simp [minEntry, combine, h]

/-- Associativity of the left-preferring minimum merge. -/
theorem combine_assoc (a b c : Option (Nat × Endpoint)) :
    combine (combine a b) c = combine a (combine b c) := by
  rcases a with _ | x
  · rfl
  rcases b with _ | y
  · rfl
  rcases c with _ | z
  · simp only [combine]
    split_ifs <;> rfl
  · simp only [combine]
    split_ifs <;> simp only [combine] <;> split_ifs <;>
      first
      | rfl
      | (exfalso; omega)

/-- Action of minEntry on a concatenation of position lists. -/
theorem minEntry_append (l₁ l₂ : List (Nat × Endpoint)) :
    minEntry (l₁ ++ l₂) = combine (minEntry l₁) (minEntry l₂) := by
  induction l₁ with
  | nil => rfl
  | cons x l₁ ih =>
    rw [List.cons_append, minEntry_cons, ih, minEntry_cons, combine_assoc]

/-- minEntry finds an entry exactly on non-empty lists. -/
theorem minEntry_eq_none {l : List (Nat × Endpoint)} :
    minEntry l = none ↔ l = [] := by
  cases l with
  | nil => simp [minEntry]
  | cons x rest =>
    cases h : minEntry rest
    · simp [minEntry, h]
    · simp only [minEntry, h]
      split_ifs <;> simp

/-- minEntry returns an entry of the list. -/
theorem minEntry_mem {l : List (Nat × Endpoint)} {x : Nat × Endpoint}
    (h : minEntry l = some x) : x ∈ l := by
  induction l with
  | nil => simp [minEntry] at h
  | cons y rest ih =>
    rw [minEntry_cons] at h
    cases hr : minEntry rest with
    | none =>
      rw [hr] at h
      simp only [combine, Option.some.injEq] at h
      rw [← h]
      exact List.mem_cons_self y rest
    | some b =>
      rw [hr] at h
      simp only [combine] at h
      split_ifs at h
      · simp only [Option.some.injEq] at h
        rw [← h]
        exact List.mem_cons_self y rest
      · simp only [Option.some.injEq] at h
        exact List.mem_cons_of_mem y (ih (hr.trans (congrArg some h)))

/-- Appending a fresh endpoint commutes with deduplication. -/
theorem dedup_append_singleton {E : List Endpoint} {e : Endpoint} (h : e ∉ E) :
    (E ++ [e]).dedup = E.dedup ++ [e] := by
  induction E with
  | nil => simp
  | cons x E ih =>
    have hxe : x ≠ e := fun hx => h (hx ▸ List.mem_cons_self x E)
    have he' : e ∉ E := fun hm => h (List.mem_cons_of_mem x hm)
    by_cases hx : x ∈ E
    · rw [List.cons_append, List.dedup_cons_of_mem (List.mem_append_left [e] hx),
        ih he', List.dedup_cons_of_mem hx]
    · have hx' : x ∉ E ++ [e] := by
        intro hc
        rcases List.mem_append.mp hc with hc | hc
        · exact hx hc
        · exact hxe (List.mem_singleton.mp hc)
      rw [List.cons_append, List.dedup_cons_of_not_mem hx', ih he',
        List.dedup_cons_of_not_mem hx, List.cons_append]

/-- Every endpoint contributes at least one virtual position. -/
theorem endpointPositions_ne_nil (e : Endpoint) : endpointPositions e ≠ [] := by
  simp [endpointPositions, numReplicas, List.range_succ]

/-- Every virtual position of an endpoint is owned by that endpoint. -/
theorem snd_of_mem_endpointPositions {e : Endpoint} {x : Nat × Endpoint}
    (h : x ∈ endpointPositions e) : x.2 = e := by
  simp only [endpointPositions, List.mem_map] at h
  obtain ⟨i, -, hx⟩ := h
  rw [← hx]

/-- Ring positions after adding one fresh endpoint are the old positions
plus the new endpoint's positions. -/
theorem buildRing_append {E : List Endpoint} {e : Endpoint} (h : e ∉ E) :
    (buildRing (E ++ [e])).items = (buildRing E).items ++ endpointPositions e := by
  simp [buildRing, dedup_append_singleton h]

/-- A ring built from a non-empty endpoint set has positions. -/
theorem buildRing_items_ne_nil {E : List Endpoint} (h : E ≠ []) :
    (buildRing E).items ≠ [] := by
  simp only [buildRing]
  intro hc
  obtain ⟨x, hx⟩ := List.exists_mem_of_ne_nil E h
  have hxd : x ∈ E.dedup := List.mem_dedup.mpr hx
  have : endpointPositions x = [] := by
    have := List.flatMap_eq_nil_iff.mp hc
    exact this x hxd
  exact endpointPositions_ne_nil x this

/-- Resolution succeeds on every key when the ring has positions. -/
theorem resolve_isSome {r : Ring} (h : r.items ≠ []) (k : RoutingKey) :
    ∃ e, resolve r k = some e := by
  unfold resolve
  split
  · exact ⟨_, rfl⟩
  · cases hm2 : minEntry r.items with
    | none => exact absurd (minEntry_eq_none.mp hm2) h
    | some m => exact ⟨m.2, rfl⟩

/-- Core consistency property of the hash ring: adding one fresh endpoint
either leaves a key's resolution unchanged or moves it to the new
endpoint. -/
theorem resolve_append_cases {E : List Endpoint} {e : Endpoint} (k : RoutingKey)
    (h : e ∉ E) :
    resolve (buildRing (E ++ [e])) k = resolve (buildRing E) k ∨
    resolve (buildRing (E ++ [e])) k = some e := by
  have hitems := buildRing_append h
  unfold resolve
  rw [hitems, List.filter_append, minEntry_append, minEntry_append]
  cases hB : minEntry ((endpointPositions e).filter (fun it => hashKey k ≤ it.1)) with
  | some b =>
    have hb : b.2 = e :=
      snd_of_mem_endpointPositions (List.mem_of_mem_filter (minEntry_mem hB))
    cases hA : minEntry ((buildRing E).items.filter (fun it => hashKey k ≤ it.1)) with
    | none =>
      right
      simp [combine, hb]
    | some a =>
      simp only [combine]
      split_ifs with hab
      · left
        rfl
      · right
        simp [hb]
  | none =>
    cases hA : minEntry ((buildRing E).items.filter (fun it => hashKey k ≤ it.1)) with
    | some a =>
      left
      simp [combine]
    | none =>
      simp only [combine]
      cases hD : minEntry (endpointPositions e) with
      | none => exact absurd (minEntry_eq_none.mp hD) (endpointPositions_ne_nil e)
      | some d =>
        have hd : d.2 = e := snd_of_mem_endpointPositions (minEntry_mem hD)
        cases hC : minEntry (buildRing E).items with
        | none =>
          right
          simp [combine, hd]
        | some c =>
          simp only [combine]
          split_ifs with hcd
          · left
            rfl
          · right
            simp [hd]

/-- C3: for every routing key, resolving against a ring built from the
empty endpoint set fails (NoEndpoints); a dispatch call in that state
returns the routing error to the caller, delivers no item of the batch to
any exporter (empty delivery list, hence no partial side effects on the
pure component state), and the per-batch consume path reports the same
error. -/
theorem dispatch_empty_endpoints (k : RoutingKey)
    (pool : List (Endpoint × PooledExporter)) (items : List LogRecord) (ld : Logs) :
    resolve (buildRing []) k = none ∧
    dispatch ⟨buildRing [], pool⟩ items = (.routingError noEndpointsMsg, []) ∧
    consumeLog ⟨buildRing [], pool⟩ ld = .error noEndpointsMsg :=
  ⟨rfl, rfl, rfl⟩

/-- C4: when the endpoint set changes by one fresh endpoint e, a key is
remapped only if its nearest-successor position maps to e: resolving on
the ring over E plus e yields either the old resolution over E or e, and a
key whose resolution differs between the two rings resolves to e on the
larger ring (read with old set E plus e and new set E, this also covers
removal of one endpoint). -/
theorem ring_bounded_remapping (E : List Endpoint) (e : Endpoint) (k : RoutingKey)
    (h : e ∉ E) :
    (resolve (buildRing (E ++ [e])) k = resolve (buildRing E) k ∨
      resolve (buildRing (E ++ [e])) k = some e) ∧
    (resolve (buildRing (E ++ [e])) k ≠ some e →
      resolve (buildRing (E ++ [e])) k = resolve (buildRing E) k) ∧
    (resolve (buildRing E) k ≠ resolve (buildRing (E ++ [e])) k →
      resolve (buildRing (E ++ [e])) k = some e) :=
  have hc := resolve_append_cases k h
  ⟨hc, fun hne => hc.resolve_right hne,
    fun hne => hc.resolve_left (fun heq => hne heq.symm)⟩

/-- Witness for ring_bounded_remapping: concrete two-endpoint instance. -/
theorem ring_bounded_remapping_witness :
    resolve (buildRing (["endpoint-1"] ++ ["endpoint-2"])) [1, 2, 3] =
        resolve (buildRing ["endpoint-1"]) [1, 2, 3] ∨
      resolve (buildRing (["endpoint-1"] ++ ["endpoint-2"])) [1, 2, 3] =
        some "endpoint-2" :=
  (ring_bounded_remapping ["endpoint-1"] "endpoint-2" [1, 2, 3] (by decide)).1

/-- C5: resolution is deterministic: on an unchanged ring, repeated
resolutions of the same key agree, two items with the same routing key
resolve to the same endpoint, and two items of one batch sharing a routing
key always land in the same sub-batch of the split. -/
theorem resolve_deterministic (E : List Endpoint) (k : RoutingKey) (r : Ring)
    (it₁ it₂ : LogRecord) (hkey : it₁.traceID = it₂.traceID) :
    resolve (buildRing E) k = resolve (buildRing E) k ∧
    routeItem r it₁ = routeItem r it₂ ∧
    ∀ items : List LogRecord, it₁ ∈ items → it₂ ∈ items →
      ∀ g ∈ subBatches r items, (it₁ ∈ g.2 ↔ it₂ ∈ g.2) := by
  refine ⟨rfl, by simp [routeItem, hkey], ?_⟩
  intro items h1 h2 g hg
  simp only [subBatches, List.mem_map] at hg
  obtain ⟨e, -, he⟩ := hg
  rw [← he]
  simp [List.mem_filter, h1, h2, routeItem, hkey]

/-- Witness for resolve_deterministic: two records sharing a key on a
one-endpoint ring are routed identically and share a sub-batch. -/
theorem resolve_deterministic_witness :
    routeItem (buildRing ["endpoint-1"]) ⟨[1, 2, 3], "first"⟩ =
      routeItem (buildRing ["endpoint-1"]) ⟨[1, 2, 3], "second"⟩ ∧
    ((⟨[1, 2, 3], "first"⟩ : LogRecord) ∈
        (List.filter
          (fun it => decide (routeItem (buildRing ["endpoint-1"]) it = some "endpoint-1"))
          [⟨[1, 2, 3], "first"⟩, ⟨[1, 2, 3], "second"⟩]) ↔
      (⟨[1, 2, 3], "second"⟩ : LogRecord) ∈
        (List.filter
          (fun it => decide (routeItem (buildRing ["endpoint-1"]) it = some "endpoint-1"))
          [⟨[1, 2, 3], "first"⟩, ⟨[1, 2, 3], "second"⟩])) :=
  ⟨(resolve_deterministic ["endpoint-1"] [7] (buildRing ["endpoint-1"])
      ⟨[1, 2, 3], "first"⟩ ⟨[1, 2, 3], "second"⟩ rfl).2.1,
    (resolve_deterministic ["endpoint-1"] [7] (buildRing ["endpoint-1"])
        ⟨[1, 2, 3], "first"⟩ ⟨[1, 2, 3], "second"⟩ rfl).2.2
      [⟨[1, 2, 3], "first"⟩, ⟨[1, 2, 3], "second"⟩] (by decide) (by decide)
      ("endpoint-1",
        List.filter
          (fun it => decide (routeItem (buildRing ["endpoint-1"]) it = some "endpoint-1"))
          [⟨[1, 2, 3], "first"⟩, ⟨[1, 2, 3], "second"⟩])
      (by decide)⟩

/-- Splitting a list's length by a Boolean predicate. -/
theorem length_filter_split {α : Type} (p : α → Bool) (l : List α) :
    (l.filter p).length + (l.filter (fun a => !(p a))).length = l.length := by
  induction l with
  | nil => rfl
  | cons x xs ih =>
    cases hx : p x <;> simp [List.filter_cons, hx] <;> omega

/-- Bucketing a list by the value of a function over a duplicate-free list
of bucket keys covering every element partitions the list: the bucket
sizes sum to the list's length. -/
theorem sum_bucket_lengths {α β : Type} [DecidableEq β] (f : α → β) :
    ∀ (es : List β) (l : List α), es.Nodup → (∀ a ∈ l, f a ∈ es) →
      (es.map (fun e => (l.filter (fun a => f a = e)).length)).sum = l.length := by
  intro es
  induction es with
  | nil =>
    intro l _ hcov
    have hl : l = [] :=
      List.eq_nil_iff_forall_not_mem.mpr fun a ha =>
        absurd (hcov a ha) (List.not_mem_nil (f a))
    simp [hl]
  | cons e es ih =>
    intro l hnd hcov
    have hsplit := length_filter_split (fun a => decide (f a = e)) l
    have hcov₂ : ∀ a ∈ l.filter (fun a => !(decide (f a = e))), f a ∈ es := by
      intro a ha
      have hmem := List.mem_filter.mp ha
      have hne : f a ≠ e := by simpa using hmem.2
      cases List.mem_cons.mp (hcov a hmem.1) with
      | inl hh => exact absurd hh hne
      | inr hh => exact hh
    have hbuckets : ∀ e' ∈ es,
        (l.filter (fun a => f a = e')).length =
          ((l.filter (fun a => !(decide (f a = e)))).filter
            (fun a => f a = e')).length := by
      intro e' he'
      have hee' : e' ≠ e := fun hc => (List.nodup_cons.mp hnd).1 (hc ▸ he')
      rw [List.filter_filter]
      have : ∀ a ∈ l,
          (decide (f a = e') && !(decide (f a = e))) = decide (f a = e') := by
        intro a _
        by_cases hfa : f a = e'
        · simp [hfa, hee']
        · simp [hfa]
      rw [List.filter_congr this]
    have hih := ih (l.filter (fun a => !(decide (f a = e))))
      (List.nodup_cons.mp hnd).2 hcov₂
    rw [List.map_cons, List.sum_cons, List.map_congr_left hbuckets, hih]
    simpa using hsplit

/-- C1: over a ring built from a non-empty endpoint set, the split of an
N-item batch whose keys resolve to M distinct endpoints yields exactly M
sub-batches, each non-empty, whose item counts sum to N; every item of
the batch lands in a sub-batch and in only one sub-batch, so each item is
dispatched to exactly one Endpoint's exporter per delivery attempt. -/
theorem dispatch_partitions_batch (E : List Endpoint) (items : List LogRecord)
    (hE : E ≠ []) :
    (subBatches (buildRing E) items).length =
      ((items.filterMap (routeItem (buildRing E))).dedup).length ∧
    (∀ g ∈ subBatches (buildRing E) items, g.2 ≠ []) ∧
    ((subBatches (buildRing E) items).map (fun g => g.2.length)).sum =
      items.length ∧
    (∀ it ∈ items, ∃ g ∈ subBatches (buildRing E) items, it ∈ g.2) ∧
    (∀ g₁ ∈ subBatches (buildRing E) items, ∀ g₂ ∈ subBatches (buildRing E) items,
      ∀ it : LogRecord, it ∈ g₁.2 → it ∈ g₂.2 → g₁ = g₂) := by
  have hring := buildRing_items_ne_nil hE
  have htotal : ∀ it : LogRecord, ∃ e, routeItem (buildRing E) it = some e :=
    fun it => resolve_isSome hring it.traceID
  refine ⟨by simp [subBatches], ?_, ?_, ?_, ?_⟩
  · intro g hg
    simp only [subBatches, List.mem_map] at hg
    obtain ⟨e, he, hge⟩ := hg
    obtain ⟨a, ha, hae⟩ :=
      List.mem_filterMap.mp (List.mem_dedup.mp he)
    have : a ∈ items.filter
        (fun it => decide (routeItem (buildRing E) it = some e)) :=
      List.mem_filter.mpr ⟨ha, by simp [hae]⟩
    rw [← hge]
    exact List.ne_nil_of_mem this
  · have hnd : ((items.filterMap (routeItem (buildRing E))).dedup.map
        (some : Endpoint → Option Endpoint)).Nodup :=
      (List.nodup_dedup _).map (Option.some_injective Endpoint)
    have hcov : ∀ a ∈ items,
        routeItem (buildRing E) a ∈
          (items.filterMap (routeItem (buildRing E))).dedup.map
            (some : Endpoint → Option Endpoint) := by
      intro a ha
      obtain ⟨e, he⟩ := htotal a
      rw [he]
      exact List.mem_map.mpr
        ⟨e, List.mem_dedup.mpr (List.mem_filterMap.mpr ⟨a, ha, he⟩), rfl⟩
    have hsum := sum_bucket_lengths (routeItem (buildRing E))
      ((items.filterMap (routeItem (buildRing E))).dedup.map
        (some : Endpoint → Option Endpoint)) items hnd hcov
    rw [List.map_map] at hsum
    simpa [subBatches, List.map_map, Function.comp] using hsum
  · intro it hit
    obtain ⟨e, he⟩ := htotal it
    refine ⟨(e, items.filter
      (fun a => decide (routeItem (buildRing E) a = some e))), ?_, ?_⟩
    · exact List.mem_map.mpr
        ⟨e, List.mem_dedup.mpr (List.mem_filterMap.mpr ⟨it, hit, he⟩), rfl⟩
    · exact List.mem_filter.mpr ⟨hit, by simp [he]⟩
  · intro g₁ hg₁ g₂ hg₂ it hit₁ hit₂
    simp only [subBatches, List.mem_map] at hg₁ hg₂
    obtain ⟨e₁, -, hge₁⟩ := hg₁
    obtain ⟨e₂, -, hge₂⟩ := hg₂
    rw [← hge₁] at hit₁ ⊢
    rw [← hge₂] at hit₂ ⊢
    have h₁ : routeItem (buildRing E) it = some e₁ := by
      simpa using (List.mem_filter.mp hit₁).2
    have h₂ : routeItem (buildRing E) it = some e₂ := by
      simpa using (List.mem_filter.mp hit₂).2
    have : e₁ = e₂ := Option.some.inj (h₁.symm.trans h₂)
    rw [this]

/-- Witness for dispatch_partitions_batch: a three-record batch over two
endpoints. -/
theorem dispatch_partitions_batch_witness :
    (subBatches (buildRing ["endpoint-1", "endpoint-2"])
        [⟨[1, 2, 3, 4], "a"⟩, ⟨[2, 3, 4, 5], "b"⟩, ⟨[9], "c"⟩]).length =
      (([⟨[1, 2, 3, 4], "a"⟩, ⟨[2, 3, 4, 5], "b"⟩,
          ⟨[9], "c"⟩] : List LogRecord).filterMap
        (routeItem (buildRing ["endpoint-1", "endpoint-2"]))).dedup.length ∧
    ((subBatches (buildRing ["endpoint-1", "endpoint-2"])
        [⟨[1, 2, 3, 4], "a"⟩, ⟨[2, 3, 4, 5], "b"⟩, ⟨[9], "c"⟩]).map
      (fun g => g.2.length)).sum =
      ([⟨[1, 2, 3, 4], "a"⟩, ⟨[2, 3, 4, 5], "b"⟩,
        ⟨[9], "c"⟩] : List LogRecord).length :=
  ⟨(dispatch_partitions_batch ["endpoint-1", "endpoint-2"]
      [⟨[1, 2, 3, 4], "a"⟩, ⟨[2, 3, 4, 5], "b"⟩, ⟨[9], "c"⟩] (by decide)).1,
    (dispatch_partitions_batch ["endpoint-1", "endpoint-2"]
      [⟨[1, 2, 3, 4], "a"⟩, ⟨[2, 3, 4, 5], "b"⟩, ⟨[9], "c"⟩] (by decide)).2.2.1⟩


/-- Characterization of an empty failure list: every export attempt
succeeded. -/
theorem failedOf_eq_nil {rs : List (Endpoint × List LogRecord × Except String Unit)} :
    failedOf rs = [] ↔ ∀ r ∈ rs, r.2.2 = .ok () := by
  unfold failedOf
  rw [List.filterMap_eq_nil_iff]
  constructor
  · intro hall r hr
    have hh := hall r hr
    cases hc : r.2.2 with
    | ok u =>
      cases u
      rfl
    | error m =>
      rw [hc] at hh
      simp at hh
  · intro hall r hr
    rw [hall r hr]

/-- Membership in the failure list names exactly the endpoints whose
export attempt failed, with their errors. -/
theorem mem_failedOf {rs : List (Endpoint × List LogRecord × Except String Unit)}
    {e : Endpoint} {m : String} :
    (e, m) ∈ failedOf rs ↔
      ∃ sub, (e, sub, (.error m : Except String Unit)) ∈ rs := by
  unfold failedOf
  rw [List.mem_filterMap]
  constructor
  · rintro ⟨⟨e', sub, res⟩, hmem, hf⟩
    cases res with
    | ok u => simp at hf
    | error m' =>
      simp only [Prod.mk.injEq] at hf
      obtain ⟨rfl, rfl⟩ := hf
      exact ⟨sub, hmem⟩
  · rintro ⟨sub, hmem⟩
    exact ⟨(e, sub, .error m), hmem, rfl⟩

/-- Membership in the delivery list: exactly the sub-batches whose export
attempt succeeded. -/
theorem mem_deliveredOf {rs : List (Endpoint × List LogRecord × Except String Unit)}
    {e : Endpoint} {sub : List LogRecord} :
    (e, sub) ∈ deliveredOf rs ↔
      (e, sub, (.ok () : Except String Unit)) ∈ rs := by
  unfold deliveredOf
  rw [List.mem_filterMap]
  constructor
  · rintro ⟨⟨e', sub', res⟩, hmem, hf⟩
    cases res with
    | error m => simp at hf
    | ok u =>
      cases u
      simp only [Prod.mk.injEq] at hf
      obtain ⟨rfl, rfl⟩ := hf
      exact hmem
  · intro hmem
    exact ⟨(e, sub, .ok ()), hmem, rfl⟩

/-- C2: over a non-empty endpoint set, a dispatch call succeeds exactly
when every per-endpoint sub-dispatch succeeds; on failure the aggregate
names exactly the endpoints whose export failed, with their errors; the
sub-batches of the other endpoints are still delivered (a failure for one
endpoint never aborts sibling deliveries in the same call); and every
sub-batch is attempted exactly once — one attempt per distinct endpoint,
no internal retry. -/
theorem dispatch_error_aggregation (st : LBState) (items : List LogRecord)
    (h : st.ring.items ≠ []) :
    ((dispatch st items).1 = .success ↔
      ∀ r ∈ exportResults st items, r.2.2 = .ok ()) ∧
    (∀ fs, (dispatch st items).1 = .failure fs →
      ∀ e m, ((e, m) ∈ fs ↔
        ∃ sub, (e, sub, (.error m : Except String Unit)) ∈ exportResults st items)) ∧
    (∀ e sub, ((e, sub, (.ok () : Except String Unit)) ∈ exportResults st items ↔
      (e, sub) ∈ (dispatch st items).2)) ∧
    ((exportResults st items).map (fun r => r.1)).Nodup ∧
    (exportResults st items).length = (subBatches st.ring items).length := by
  have hd : dispatch st items =
      (if failedOf (exportResults st items) = [] then .success
        else .failure (failedOf (exportResults st items)),
        deliveredOf (exportResults st items)) := by
    unfold dispatch
    rw [if_neg h]
  refine ⟨?_, ?_, ?_, ?_, ?_⟩
  · have hfst : (dispatch st items).1 = .success ↔
        failedOf (exportResults st items) = [] := by
      rw [hd]
      by_cases hc : failedOf (exportResults st items) = [] <;> simp [hc]
    exact hfst.trans failedOf_eq_nil
  · intro fs hfs e m
    rw [hd] at hfs
    by_cases hc : failedOf (exportResults st items) = []
    · rw [if_pos hc] at hfs
      simp at hfs
    · rw [if_neg hc] at hfs
      simp only [DispatchResult.failure.injEq] at hfs
      rw [← hfs]
      exact mem_failedOf
  · intro e sub
    rw [hd]
    exact mem_deliveredOf.symm
  · have : (exportResults st items).map (fun r => r.1) =
        (items.filterMap (routeItem st.ring)).dedup := by
      simp [exportResults, subBatches, List.map_map, Function.comp_def]
    rw [this]
    exact List.nodup_dedup _
  · simp [exportResults]

/-- Witness for dispatch_error_aggregation: two endpoints, one of them
with a failing backend. -/
theorem dispatch_error_aggregation_witness :
    ((exportResults
        ⟨buildRing ["endpoint-1", "endpoint-2"],
          [("endpoint-1", .logs none), ("endpoint-2", .logs (some "backend down"))]⟩
        [⟨[1, 2, 3, 4], "a"⟩, ⟨[9], "b"⟩]).map (fun r => r.1)).Nodup ∧
    (exportResults
        ⟨buildRing ["endpoint-1", "endpoint-2"],
          [("endpoint-1", .logs none), ("endpoint-2", .logs (some "backend down"))]⟩
        [⟨[1, 2, 3, 4], "a"⟩, ⟨[9], "b"⟩]).length =
      (subBatches (buildRing ["endpoint-1", "endpoint-2"])
        [⟨[1, 2, 3, 4], "a"⟩, ⟨[9], "b"⟩]).length :=
  ⟨(dispatch_error_aggregation
      ⟨buildRing ["endpoint-1", "endpoint-2"],
        [("endpoint-1", .logs none), ("endpoint-2", .logs (some "backend down"))]⟩
      [⟨[1, 2, 3, 4], "a"⟩, ⟨[9], "b"⟩] (by decide)).2.2.2.1,
    (dispatch_error_aggregation
      ⟨buildRing ["endpoint-1", "endpoint-2"],
        [("endpoint-1", .logs none), ("endpoint-2", .logs (some "backend down"))]⟩
      [⟨[1, 2, 3, 4], "a"⟩, ⟨[9], "b"⟩] (by decide)).2.2.2.2⟩

/-- C6: an item with no extractable routing key carries the empty trace
identifier; over a ring that resolves the empty key (any non-empty
endpoint set) the batch is delivered to that deterministic fallback
endpoint rather than dropped, and at the item level a zero-key item of any
batch lands in the fallback endpoint's sub-batch of the split. -/
theorem fallback_key_delivery (st : LBState) (ld : Logs) (e : Endpoint)
    (hkey : traceIDFromLogs ld = emptyTraceID)
    (hres : resolve st.ring emptyTraceID = some e)
    (hexp : lookupExporter st.pool e = some (.logs none)) :
    consumeLog st ld = .ok (e, ld) ∧
    ∀ (items : List LogRecord) (it : LogRecord), it ∈ items →
      it.traceID = emptyTraceID →
      ∃ g ∈ subBatches st.ring items, g.1 = e ∧ it ∈ g.2 := by
  constructor
  · simp only [consumeLog, hkey, hres, hexp]
  · intro items it hit hkit
    have hroute : routeItem st.ring it = some e := by
      rw [routeItem, hkit, hres]
    refine ⟨(e, items.filter (fun a => decide (routeItem st.ring a = some e))),
      ?_, rfl, ?_⟩
    · exact List.mem_map.mpr
        ⟨e, List.mem_dedup.mpr (List.mem_filterMap.mpr ⟨it, hit, hroute⟩), rfl⟩
    · exact List.mem_filter.mpr ⟨hit, by simp [hroute]⟩

/-- Witness for fallback_key_delivery: a single-endpoint pool delivers a
batch whose only record has no trace identifier. -/
theorem fallback_key_delivery_witness :
    consumeLog ⟨buildRing ["endpoint-1"], [("endpoint-1", .logs none)]⟩
        ⟨[⟨[⟨[⟨emptyTraceID, "orphan record"⟩]⟩]⟩]⟩ =
      .ok ("endpoint-1", ⟨[⟨[⟨[⟨emptyTraceID, "orphan record"⟩]⟩]⟩]⟩) :=
  (fallback_key_delivery ⟨buildRing ["endpoint-1"], [("endpoint-1", .logs none)]⟩
      ⟨[⟨[⟨[⟨emptyTraceID, "orphan record"⟩]⟩]⟩]⟩ "endpoint-1" rfl (by decide)
      (by decide)).1

/-- C7: start-time failures are fatal and reported synchronously: a
configuration defining no resolver fails construction with errNoResolver,
and when the resolver's start fails the component's Start returns exactly
that error; by contrast a resolution failure on an individual poll cycle
is non-fatal — the resolver state, including the last-known-good endpoint
list, is retained unchanged and no callback fires. -/
theorem start_failure_semantics (cfg : Config) (hs : cfg.resolver.static = none)
    (hd : cfg.resolver.dns = none) (msg : String) (lb : LoadBalancerState)
    (rst : ResolverState) (pollErr : String) :
    newLogsExporter cfg = .error errNoResolver ∧
    lbStart (some msg) lb = .error msg ∧
    pollStep rst (.error pollErr) = rst := by
  refine ⟨?_, rfl, rfl⟩
  simp only [newLogsExporter, hs, hd]

/-- Witness for start_failure_semantics at concrete inputs. -/
theorem start_failure_semantics_witness :
    newLogsExporter ⟨⟨none, none⟩⟩ = .error errNoResolver ∧
    lbStart (some "resolver start failed") ⟨false⟩ =
      .error "resolver start failed" ∧
    pollStep ⟨["endpoint-1"], []⟩ (.error "lookup timeout") =
      ⟨["endpoint-1"], []⟩ :=
  start_failure_semantics ⟨⟨none, none⟩⟩ rfl rfl "resolver start failed"
    ⟨false⟩ ⟨["endpoint-1"], []⟩ "lookup timeout"

/-- C8: a poll returning an address set identical (as an unordered set) to
the previous one leaves the resolver state unchanged — no callback
invocation, hence zero Pool reconciliations; a poll whose address set
differs by exactly one added or one removed address stores the new list
and invokes the change callback exactly once, with the new list as its
argument. -/
theorem resolver_poll_diff (st : ResolverState) (newAddrs : List String)
    (a : String) :
    (List.Perm newAddrs st.endpoints → pollStep st (.ok newAddrs) = st) ∧
    (List.Perm newAddrs (a :: st.endpoints) → a ∉ st.endpoints →
      pollStep st (.ok newAddrs) = ⟨newAddrs, st.callbackLog ++ [newAddrs]⟩) ∧
    (List.Perm st.endpoints (a :: newAddrs) → a ∉ newAddrs →
      pollStep st (.ok newAddrs) = ⟨newAddrs, st.callbackLog ++ [newAddrs]⟩) := by
  refine ⟨?_, ?_, ?_⟩
  · intro hperm
    simp only [pollStep]
    rw [if_pos hperm]
  · intro hperm ha
    have hne : ¬ List.Perm newAddrs st.endpoints := by
      intro hc
      have h1 := hc.length_eq
      have h2 := hperm.length_eq
      rw [List.length_cons] at h2
      omega
    simp only [pollStep]
    rw [if_neg hne]
  · intro hperm ha
    have hne : ¬ List.Perm newAddrs st.endpoints := by
      intro hc
      have h1 := hc.length_eq
      have h2 := hperm.length_eq
      rw [List.length_cons] at h2
      omega
    simp only [pollStep]
    rw [if_neg hne]

/-- Witness for resolver_poll_diff: an unchanged unordered set fires no
callback; adding one address and removing one address each fire exactly
one callback carrying the new list. -/
theorem resolver_poll_diff_witness :
    pollStep ⟨["addr-1", "addr-2"], []⟩ (.ok ["addr-2", "addr-1"]) =
      ⟨["addr-1", "addr-2"], []⟩ ∧
    pollStep ⟨["addr-1", "addr-2"], []⟩ (.ok ["addr-3", "addr-1", "addr-2"]) =
      ⟨["addr-3", "addr-1", "addr-2"], [["addr-3", "addr-1", "addr-2"]]⟩ ∧
    pollStep ⟨["addr-1", "addr-2"], []⟩ (.ok ["addr-2"]) =
      ⟨["addr-2"], [["addr-2"]]⟩ :=
  ⟨(resolver_poll_diff ⟨["addr-1", "addr-2"], []⟩ ["addr-2", "addr-1"]
      "addr-3").1 (by decide),
    (resolver_poll_diff ⟨["addr-1", "addr-2"], []⟩ ["addr-3", "addr-1", "addr-2"]
      "addr-3").2.1 (by decide) (by decide),
    (resolver_poll_diff ⟨["addr-1", "addr-2"], []⟩ ["addr-2"]
      "addr-1").2.2 (by decide) (by decide)⟩

/-- C9: when the pooled component registered for the resolved endpoint is
not a logs exporter, consuming the batch fails with the exact error naming
the expected interface and the actual dynamic type, and the batch is not
delivered; the consume path is a total function, so it reports the error
rather than panicking. -/
theorem unexpected_exporter_type (st : LBState) (ld : Logs) (e : Endpoint)
    (t : String) (hres : resolve st.ring (traceIDFromLogs ld) = some e)
    (hpool : lookupExporter st.pool e = some (.other t)) :
    consumeLog st ld =
      .error ("unable to export logs, unexpected exporter type: expected *component.LogsExporter but got " ++ t) := by
  simp only [consumeLog, hres, hpool]
  rfl

/-- Witness for unexpected_exporter_type: a pool entry of a non-logs
component type. -/
theorem unexpected_exporter_type_witness :
    consumeLog
        ⟨buildRing ["endpoint-1"], [("endpoint-1", .other "*mockExporter")]⟩
        ⟨[⟨[⟨[⟨[1, 2, 3, 4], "payload"⟩]⟩]⟩]⟩ =
      .error ("unable to export logs, unexpected exporter type: expected *component.LogsExporter but got " ++ "*mockExporter") :=
  unexpected_exporter_type
    ⟨buildRing ["endpoint-1"], [("endpoint-1", .other "*mockExporter")]⟩
    ⟨[⟨[⟨[⟨[1, 2, 3, 4], "payload"⟩]⟩]⟩]⟩ "endpoint-1" "*mockExporter"
    (by decide) (by decide)

/-- C10: a logs batch with no resource logs, or whose first resource entry
contains no scope logs, or whose first scope entry contains no log
records, yields the empty (all-zero) trace identifier from
traceIDFromLogs; consuming such a batch over a state whose fallback
endpoint holds a working logs exporter therefore takes the
fallback-endpoint routing path and succeeds rather than failing. -/
theorem empty_batch_trace_id (ld : Logs)
    (h : ld.resourceLogs = [] ∨
      (∃ rl rest, ld.resourceLogs = rl :: rest ∧ rl.scopeLogs = []) ∨
      (∃ rl rest sl srest, ld.resourceLogs = rl :: rest ∧
        rl.scopeLogs = sl :: srest ∧ sl.logRecords = [])) :
    traceIDFromLogs ld = emptyTraceID ∧
    ∀ (st : LBState) (e : Endpoint), resolve st.ring emptyTraceID = some e →
      lookupExporter st.pool e = some (.logs none) →
      consumeLog st ld = .ok (e, ld) := by
  have hkey : traceIDFromLogs ld = emptyTraceID := by
    rcases h with h | ⟨rl, rest, hr, hs⟩ | ⟨rl, rest, sl, srest, hr, hs, hl⟩
    · simp [traceIDFromLogs, h]
    · simp [traceIDFromLogs, hr, hs]
    · simp [traceIDFromLogs, hr, hs, hl]
  refine ⟨hkey, ?_⟩
  intro st e hres hexp
  simp only [consumeLog, hkey, hres, hexp]

/-- Witness for empty_batch_trace_id: the three empty batch shapes of
TestNoLogsInBatch, and delivery of the fully empty batch through the
fallback endpoint. -/
theorem empty_batch_trace_id_witness :
    traceIDFromLogs ⟨[]⟩ = emptyTraceID ∧
    traceIDFromLogs ⟨[⟨[]⟩]⟩ = emptyTraceID ∧
    traceIDFromLogs ⟨[⟨[⟨[]⟩]⟩]⟩ = emptyTraceID ∧
    consumeLog ⟨buildRing ["endpoint-1"], [("endpoint-1", .logs none)]⟩ ⟨[]⟩ =
      .ok ("endpoint-1", ⟨[]⟩) :=
  ⟨(empty_batch_trace_id ⟨[]⟩ (Or.inl rfl)).1,
    (empty_batch_trace_id ⟨[⟨[]⟩]⟩ (Or.inr (Or.inl ⟨⟨[]⟩, [], rfl, rfl⟩))).1,
    (empty_batch_trace_id ⟨[⟨[⟨[]⟩]⟩]⟩
      (Or.inr (Or.inr ⟨⟨[⟨[]⟩]⟩, [], ⟨[]⟩, [], rfl, rfl, rfl⟩))).1,
    (empty_batch_trace_id ⟨[]⟩ (Or.inl rfl)).2
      ⟨buildRing ["endpoint-1"], [("endpoint-1", .logs none)]⟩ "endpoint-1"
      (by decide) (by decide)⟩

end LB
